import Mathlib

/-!
Shallow embedding of the TinyLisp interpreter (interpreter.c) in Lean 4.

Modelling conventions, stated once here and referenced from the individual
definitions:

* C `long` is modelled as mathematical `Int`.  No claim in scope concerns
  64-bit wraparound, and both sides of the one refinement claim (integer
  exponentiation) agree under either reading, so overflow is not modelled.
* C `double` is modelled by `Dbl`, an exact fraction (numerator/denominator
  pair) with school arithmetic.  Every double value reached by a claim is a
  small integer, where IEEE arithmetic is exact and agrees with fractions.
* The `union` inside `struct lval` is modelled by `Payload`.  The `type` tag
  is a separate field, exactly as in C; a value whose tag disagrees with its
  payload is representable, because the C code can and does produce such
  states.  `Payload.undef` stands for uninitialized or indeterminate memory.
* Reading a union member other than the one last written, calling through a
  dangling pointer, and indexing a cell array out of bounds are C undefined
  behaviour; the model signals them with `Halt.fault`.  Division of a C
  `long` by zero without a guard (the `%` operator) is likewise a fault
  (it raises SIGFPE on mainstream targets).
* Heap pointers are replaced by values: an environment owns its bindings and
  its parent by value.  Evaluation threads the (possibly updated) environment
  through every step, mirroring the in-place mutation of the C code; the
  parent slot of a saturated closure environment carries the caller
  environment in and out of a call.
* Recursion through `lval_eval` is bounded by an explicit fuel parameter;
  running out of fuel yields `Halt.fuel`, distinct from a fault.  The C
  evaluator has no such bound (it can recurse forever), so statements about
  evaluation are made for a given fuel.
-/

/-- The `var_t` enum of interpreter.c: LVAL_NUM, LVAL_FLOAT, LVAL_ERR,
LVAL_SYM, LVAL_SEXPR, LVAL_QEXPR, LVAL_FUN. -/
inductive VarT where
  | lnum
  | lfloat
  | lerr
  | lsym
  | lsexpr
  | lqexpr
  | lfun
deriving DecidableEq, Repr

/-- Exact-fraction idealization of a C `double`: numerator and denominator.
All doubles that the claims exercise are integers (denominator 1), where
IEEE double arithmetic is exact, so fraction arithmetic coincides with the
C semantics on every path a claim takes. -/
structure Dbl where
  dnum : Int
  dden : Int
deriving DecidableEq, Repr

/-- The cast `(double)x` applied to a C `long`. -/
def dofInt (n : Int) : Dbl := ⟨n, 1⟩

/-- Double addition. -/
def dadd (a b : Dbl) : Dbl := ⟨a.dnum * b.dden + b.dnum * a.dden, a.dden * b.dden⟩

/-- Double subtraction. -/
def dsub (a b : Dbl) : Dbl := ⟨a.dnum * b.dden - b.dnum * a.dden, a.dden * b.dden⟩

/-- Double multiplication. -/
def dmul (a b : Dbl) : Dbl := ⟨a.dnum * b.dnum, a.dden * b.dden⟩

/-- Double division.  Division by zero makes the denominator zero, the
fraction analogue of the IEEE infinity or NaN the C code would produce;
no claim inspects such a value. -/
def ddiv (a b : Dbl) : Dbl := ⟨a.dnum * b.dden, a.dden * b.dnum⟩

/-- Double negation, for the unary minus branch of builtin_op. -/
def dneg (a : Dbl) : Dbl := ⟨-a.dnum, a.dden⟩

/-- Truncation toward zero of a fraction, as C fmod uses it. -/
def dtrunc (a : Dbl) : Int := a.dnum.tdiv a.dden

/-- `fmod`, expressed by the identity fmod(a,b) = a - b*trunc(a/b), which is
exact for the representable cases.  fmod with second operand zero yields NaN
in C; here it yields a junk value no claim inspects. -/
def dfmod (a b : Dbl) : Dbl := dsub a (dmul b (dofInt (dtrunc (ddiv a b))))

/-- `pow` on doubles.  For an integer exponent, which is the only case exact
in both IEEE and fraction arithmetic, this is iterated multiplication; a
non-integer exponent generally has an irrational result that no fraction
represents, and no claim reaches that branch, so it collapses to a junk
value. -/
def dpow (a b : Dbl) : Dbl :=
  if b.dden = 1 then
    if 0 ≤ b.dnum then ⟨a.dnum ^ b.dnum.toNat, a.dden ^ b.dnum.toNat⟩
    else ⟨a.dden ^ (-b.dnum).toNat, a.dnum ^ (-b.dnum).toNat⟩
  else ⟨0, 0⟩

/-- The comparison op1 > op2 on doubles (valid for the positive denominators
that arise on every claim path). -/
def dgt (a b : Dbl) : Bool := b.dnum * a.dden < a.dnum * b.dden

/-- Why evaluation stopped without producing a value: `fuel` is exhaustion of
the explicit recursion bound (the C code would simply keep recursing);
`fault` is C undefined behaviour (SIGFPE, out-of-bounds access, or a read of
an inactive union member). -/
inductive Halt where
  | fuel
  | fault (msg : String)
deriving DecidableEq, Repr

/-- Result monad for the embedded interpreter. -/
abbrev Res (α : Type) := Except Halt α

mutual
/-- `struct lval`: the type tag, the union, and the cell array.  The closure
fields (env, formals, body) and the builtin function pointer live in the
payload; in C the builtin pointer is a union member and the closure fields
are separate struct fields that only LVAL_FUN values use, with
`builtin == NULL` discriminating closures from natives, so merging them into
one discriminated payload is faithful. -/
inductive Lval where
  | mk (ty : VarT) (pay : Payload) (cells : List Lval) : Lval

/-- The union of `struct lval` (plus the closure fields, see `Lval`).
`undef` models memory that was never written (e.g. a freshly malloced value
whose kind never stores into the union). -/
inductive Payload where
  | undef : Payload
  | pnum (n : Int) : Payload
  | pdnum (d : Dbl) : Payload
  | pstr (s : String) : Payload
  | pbuiltin (b : String) : Payload
  | pclosure (env : Lenv) (formals body : Lval) : Payload

/-- `struct lenv`: parent pointer and the parallel syms/vals arrays, merged
into one association list that preserves order. -/
inductive Lenv where
  | mk (par : Option Lenv) (binds : List (String × Lval)) : Lenv
end

/-- Type tag of a value. -/
def Lval.ty : Lval → VarT
  | .mk t _ _ => t

/-- Union payload of a value. -/
def Lval.pay : Lval → Payload
  | .mk _ p _ => p

/-- Children (the cell array) of a value. -/
def Lval.cells : Lval → List Lval
  | .mk _ _ c => c

/-- Parent link of an environment. -/
def Lenv.par : Lenv → Option Lenv
  | .mk p _ => p

/-- Bindings of an environment. -/
def Lenv.binds : Lenv → List (String × Lval)
  | .mk _ b => b

/-- Discriminator on payload constructors, used to state that two payloads
differ (the mutual inductive blocks derived decidable equality). -/
def Payload.tagNo : Payload → Nat
  | .undef => 0
  | .pnum _ => 1
  | .pdnum _ => 2
  | .pstr _ => 3
  | .pbuiltin _ => 4
  | .pclosure _ _ _ => 5

/-- `lval_num`: fresh LVAL_NUM value. The cell fields are uninitialized in C;
no modelled path reads them, so they are empty here. -/
def lval_num (n : Int) : Lval := Lval.mk .lnum (.pnum n) []

/-- `lval_float`: fresh LVAL_FLOAT value. -/
def lval_float (d : Dbl) : Lval := Lval.mk .lfloat (.pdnum d) []

/-- `lval_err`: fresh LVAL_ERR value carrying the formatted message. -/
def lval_err (s : String) : Lval := Lval.mk .lerr (.pstr s) []

/-- `lval_sym`: fresh LVAL_SYM value. -/
def lval_sym (s : String) : Lval := Lval.mk .lsym (.pstr s) []

/-- `lval_sexpr`: fresh empty S-expression. -/
def lval_sexpr : Lval := Lval.mk .lsexpr .undef []

/-- `lval_qexpr`: fresh empty Q-expression. -/
def lval_qexpr : Lval := Lval.mk .lqexpr .undef []

/-- `lval_fun`: native function value.  The function pointer is identified by
the name under which lenv_add_builtins registers it. -/
def lval_fun (b : String) : Lval := Lval.mk .lfun (.pbuiltin b) []

/-- `lval_lambda`: closure with a fresh, parentless, empty environment. -/
def lval_lambda (formals body : Lval) : Lval :=
  Lval.mk .lfun (.pclosure (Lenv.mk none []) formals body) []

/-- An S-expression container with the given children, as lval_read builds
via lval_add. -/
def sexprOf (cs : List Lval) : Lval := Lval.mk .lsexpr .undef cs

/-- A Q-expression container with the given children. -/
def qexprOf (cs : List Lval) : Lval := Lval.mk .lqexpr .undef cs

/-- `ltype_name`.  LVAL_FLOAT has no case in the C switch and falls through
to the default, hence the string Unknown. -/
def ltype_name : VarT → String
  | .lfun => "Function"
  | .lnum => "Number"
  | .lerr => "Error"
  | .lsym => "Symbol"
  | .lsexpr => "S-Expression"
  | .lqexpr => "Q-Expression"
  | .lfloat => "Unknown"

/-- Reading the `num` union member.  Defined exactly when the payload was
last written as a number; any other read is a type pun on the union and
faults. -/
def readN (x : Lval) : Res Int :=
  match x.pay with
  | .pnum n => .ok n
  | _ => .error (.fault ("read of inactive union member num"))

/-- Reading the `dnum` union member. -/
def readD (x : Lval) : Res Dbl :=
  match x.pay with
  | .pdnum d => .ok d
  | _ => .error (.fault ("read of inactive union member dnum"))

/-- Reading the `sym` union member. -/
def readSymStr (x : Lval) : Res String :=
  match x.pay with
  | .pstr s => .ok s
  | _ => .error (.fault ("read of inactive union member sym"))

mutual
/-- `lval_copy`.  The switch covers LVAL_FUN, LVAL_NUM, LVAL_ERR, LVAL_SYM,
LVAL_SEXPR and LVAL_QEXPR — and not LVAL_FLOAT, so for a Float the fresh
malloced value receives the type tag and nothing else: its union stays
uninitialized (`undef`).  For LVAL_NUM the C code copies the 8-byte union
member bitwise, which preserves whatever number-sized payload is there
(`pnum` or, after the builtin_op promotion bug, `pdnum`); a pointer-sized
payload read as a number is junk, hence `undef`.  For the string kinds the
stored string is duplicated; for containers the children are copied
recursively; for natives the pointer is copied shallowly; for closures the
environment, formals and body are copied recursively. -/
def lval_copy (v : Lval) : Lval :=
  match v with
  | .mk ty pay cells =>
    match ty with
    | .lfun =>
      match pay with
      | .pbuiltin b => Lval.mk .lfun (.pbuiltin b) []
      | .pclosure env formals body =>
        Lval.mk .lfun (.pclosure (lenv_copy env) (lval_copy formals) (lval_copy body)) []
      | _ => Lval.mk .lfun .undef []
    | .lnum =>
      match pay with
      | .pnum n => Lval.mk .lnum (.pnum n) []
      | .pdnum d => Lval.mk .lnum (.pdnum d) []
      | _ => Lval.mk .lnum .undef []
    | .lerr =>
      match pay with
      | .pstr s => Lval.mk .lerr (.pstr s) []
      | _ => Lval.mk .lerr .undef []
    | .lsym =>
      match pay with
      | .pstr s => Lval.mk .lsym (.pstr s) []
      | _ => Lval.mk .lsym .undef []
    | .lsexpr => Lval.mk .lsexpr .undef (lval_copy_list cells)
    | .lqexpr => Lval.mk .lqexpr .undef (lval_copy_list cells)
    | .lfloat => Lval.mk .lfloat .undef []

/-- Recursive copy of a cell array (the for loop inside lval_copy). -/
def lval_copy_list : List Lval → List Lval
  | [] => []
  | v :: vs => lval_copy v :: lval_copy_list vs

/-- `lenv_copy`: same parent reference, deep copy of every binding. -/
def lenv_copy : Lenv → Lenv
  | .mk par binds => Lenv.mk par (lenv_copy_binds binds)

/-- Recursive copy of the syms/vals arrays (the for loop inside lenv_copy). -/
def lenv_copy_binds : List (String × Lval) → List (String × Lval)
  | [] => []
  | (s, v) :: rest => (s, lval_copy v) :: lenv_copy_binds rest
end

/-- First binding for a name, mirroring the scan order of lenv_get and
lenv_put. -/
def assocFirst : List (String × Lval) → String → Option Lval
  | [], _ => none
  | (s, w) :: rest, k => if s = k then some w else assocFirst rest k

/-- `lenv_get`: scan the local bindings, on a hit return a copy of the stored
value, on a miss delegate to the parent, and at the root produce the unbound
symbol Error. -/
def lenv_get : Lenv → String → Lval
  | .mk par binds, k =>
    match assocFirst binds k with
    | some w => lval_copy w
    | none =>
      match par with
      | some p => lenv_get p k
      | none => lval_err ("Unbound Symbol \x27" ++ k ++ "\x27")

/-- The scan-replace-or-append loop of lenv_put: the first binding with the
same name is replaced in place, otherwise a new binding is appended at the
end; in both cases the environment stores a copy of the value. -/
def putBinds : List (String × Lval) → String → Lval → List (String × Lval)
  | [], k, v => [(k, lval_copy v)]
  | (s, w) :: rest, k, v =>
    if s = k then (s, lval_copy v) :: rest else (s, w) :: putBinds rest k v

/-- `lenv_put`: insert-or-replace in the current scope only. -/
def lenv_put (e : Lenv) (k : String) (v : Lval) : Lenv :=
  Lenv.mk e.par (putBinds e.binds k v)

/-- `lenv_def`: walk the parent chain to the root, then put there. -/
def lenv_def : Lenv → String → Lval → Lenv
  | .mk none binds, k, v => lenv_put (Lenv.mk none binds) k v
  | .mk (some p) binds, k, v => Lenv.mk (some (lenv_def p k v)) binds

/-- `lenv_add_builtin`: register one native function under a name. -/
def lenv_add_builtin (e : Lenv) (name : String) : Lenv :=
  lenv_put e name (lval_fun name)

/-- `lenv_add_builtins`, in the registration order of the C code. -/
def lenv_add_builtins (e : Lenv) : Lenv :=
  lenv_add_builtin (lenv_add_builtin (lenv_add_builtin (lenv_add_builtin
  (lenv_add_builtin (lenv_add_builtin (lenv_add_builtin (lenv_add_builtin
  (lenv_add_builtin (lenv_add_builtin (lenv_add_builtin (lenv_add_builtin
  (lenv_add_builtin (lenv_add_builtin (lenv_add_builtin (lenv_add_builtin
  (lenv_add_builtin (lenv_add_builtin (lenv_add_builtin e
    ("list")) ("head")) ("tail")) ("eval")) ("join")) ("cons")) ("len")) ("init"))
    ("\\")) ("def")) ("=")) ("+")) ("-")) ("*")) ("/")) ("%")) ("^")) ("min")) ("max")

/-- The REPL environment: lenv_new followed by lenv_add_builtins. -/
def initEnv : Lenv := lenv_add_builtins (Lenv.mk none [])

/-- `lval_pop` with its C index semantics: remove and return the element at
the index, shifting the rest down.  An index outside the cell array is an
out-of-bounds access and faults. -/
def lval_pop (v : Lval) (i : Int) : Res (Lval × Lval) :=
  match v.cells[i.toNat]? with
  | some x =>
    if 0 ≤ i then .ok (x, Lval.mk v.ty v.pay (v.cells.eraseIdx i.toNat))
    else .error (.fault ("lval_pop index out of bounds"))
  | none => .error (.fault ("lval_pop index out of bounds"))

/-- `lval_take`: pop, then destroy the container. -/
def lval_take (v : Lval) (i : Int) : Res Lval :=
  (lval_pop v i).map (fun p => p.1)

/-- The eight operator spellings builtin_op dispatches on. -/
def isArithOp (op : String) : Prop :=
  op = "+" ∨ op = "-" ∨ op = "*" ∨ op = "/" ∨ op = "%" ∨ op = "^" ∨
  op = "min" ∨ op = "max"

instance (op : String) : Decidable (isArithOp op) := by
  unfold isArithOp
  infer_instance

/-- The double branch of the builtin_op reduction step: the if/else chain on
the operator spelling.  The final arm is unreachable, because opStep only
consults floatBin under an isArithOp guard, matching the C chain that leaves
x unchanged when no spelling matches. -/
def floatBin (op : String) (a b : Dbl) : Dbl :=
  if op = "+" then dadd a b
  else if op = "-" then dsub a b
  else if op = "*" then dmul a b
  else if op = "/" then ddiv a b
  else if op = "%" then dfmod a b
  else if op = "^" then dpow a b
  else if op = "min" then (if dgt a b then b else a)
  else if op = "max" then (if dgt a b then a else b)
  else a

/-- `ipow` with an explicit iteration bound.  The C loop halves a positive
exponent each round, so it runs at most as many rounds as the exponent
itself, which is what the gas argument provides; the gas never runs out when
it starts at the exponent. -/
def ipowAux : Nat → Int → Nat → Int → Int
  | 0, _, _, res => res
  | g + 1, base, e, res =>
    if e = 0 then res
    else ipowAux g (base * base) (e / 2) (if e % 2 = 1 then res * base else res)

/-- `long ipow(long base, int exp)`: exponentiation by squaring.  A negative
exponent skips the loop and yields 1, exactly as in C; the C long-to-int
conversion on the exponent is the identity on every exponent a claim
exercises. -/
def ipow (base : Int) (e : Int) : Int := ipowAux e.toNat base e.toNat 1

/-- Modelled from the spec wording of the refinement claim: iterative
multiplication of the base with itself, exponent many times.  This is the
comparison definition for the exponentiation-by-squaring routine; it is not
part of the C source. -/
def iterPow (base : Int) : Nat → Int
  | 0 => 1
  | n + 1 => iterPow base n * base

/-- One iteration of the builtin_op while loop on accumulator x and popped
operand y: either the new accumulator (inl) or, for integer division by
zero, the Error that the C code breaks out of the loop with (inr).  The
double branch assigns the dnum union member of x and — exactly as the C
code — never updates the type tag of x, so an Integer accumulator that
meets a Float operand keeps the tag LVAL_NUM while its payload becomes a
double.  The integer remainder has no zero-divisor guard in C and faults. -/
def opStep (op : String) (x y : Lval) : Res (Lval ⊕ Lval) :=
  if (x.ty = .lfloat ∧ y.ty = .lnum) ∨ (x.ty = .lnum ∧ y.ty = .lfloat) ∨
     (x.ty = .lfloat ∧ y.ty = .lfloat) then do
    let op1 ← if x.ty = .lfloat then readD x else (readN x).map dofInt
    let op2 ← if y.ty = .lfloat then readD y else (readN y).map dofInt
    if isArithOp op then
      .ok (.inl (Lval.mk x.ty (.pdnum (floatBin op op1 op2)) x.cells))
    else .ok (.inl x)
  else if x.ty = .lnum ∧ y.ty = .lnum then do
    let n1 ← readN x
    let n2 ← readN y
    if op = "+" then .ok (.inl (Lval.mk .lnum (.pnum (n1 + n2)) x.cells))
    else if op = "-" then .ok (.inl (Lval.mk .lnum (.pnum (n1 - n2)) x.cells))
    else if op = "*" then .ok (.inl (Lval.mk .lnum (.pnum (n1 * n2)) x.cells))
    else if op = "/" then
      (if n2 = 0 then .ok (.inr (lval_err ("Division By Zero!")))
       else .ok (.inl (Lval.mk .lnum (.pnum (n1.tdiv n2)) x.cells)))
    else if op = "%" then
      (if n2 = 0 then .error (.fault ("integer remainder by zero"))
       else .ok (.inl (Lval.mk .lnum (.pnum (n1.tmod n2)) x.cells)))
    else if op = "^" then .ok (.inl (Lval.mk .lnum (.pnum (ipow n1 n2)) x.cells))
    else if op = "min" then
      .ok (.inl (Lval.mk .lnum (.pnum (if n2 < n1 then n2 else n1)) x.cells))
    else if op = "max" then
      .ok (.inl (Lval.mk .lnum (.pnum (if n2 < n1 then n1 else n2)) x.cells))
    else .ok (.inl x)
  else .ok (.inl x)

/-- The while loop of builtin_op: left-to-right reduction, with the integer
division-by-zero Error breaking out and discarding the remaining operands. -/
def opLoop (op : String) (x : Lval) : List Lval → Res Lval
  | [] => .ok x
  | y :: rest => do
    let r ← opStep op x y
    match r with
    | .inl x1 => opLoop op x1 rest
    | .inr errv => .ok errv

/-- `builtin_op`: check every argument is Number or Float, pop the first as
the accumulator, apply unary negation for a lone minus, then reduce.  Called
with an empty argument list the C code would pop out of bounds; the
evaluator can never produce such a call. -/
def builtin_op (e : Lenv) (a : Lval) (op : String) : Res Lval :=
  if a.cells.any (fun c => c.ty ≠ .lnum ∧ c.ty ≠ .lfloat) then
    .ok (lval_err ("Cannot operate on non-number!"))
  else
    match a.cells with
    | [] => .error (.fault ("lval_pop index out of bounds"))
    | x :: rest =>
      if op = "-" ∧ rest.isEmpty then
        match x.ty, x.pay with
        | .lnum, .pnum n => .ok (Lval.mk .lnum (.pnum (-n)) x.cells)
        | .lfloat, .pdnum d => .ok (Lval.mk .lfloat (.pdnum (dneg d)) x.cells)
        | .lnum, _ => .error (.fault ("read of inactive union member num"))
        | .lfloat, _ => .error (.fault ("read of inactive union member dnum"))
        | _, _ => .ok x
      else opLoop op x rest

/-- The while loop of builtin_head: repeatedly delete the element at index 1
until one element remains.  The gas argument bounds the iteration count by
the list length, which the loop never exceeds. -/
def headLoopAux : Nat → List Lval → List Lval
  | 0, l => l
  | g + 1, l =>
    match l with
    | x :: _ :: rest => headLoopAux g (x :: rest)
    | _ => l

/-- `builtin_head`: exactly one argument, of kind QExpr, non-empty; keep only
the first element of the taken QExpr. -/
def builtin_head (e : Lenv) (a : Lval) : Res Lval :=
  match a.cells with
  | [q] =>
    if q.ty ≠ .lqexpr then .ok (lval_err ("Function \x27head\x27 passed incorrect type!"))
    else if q.cells.length = 0 then .ok (lval_err ("Function \x27head\x27 passed \x7b\x7d!"))
    else .ok (Lval.mk q.ty q.pay (headLoopAux q.cells.length q.cells))
  | _ => .ok (lval_err ("Function \x27head\x27 passed too many arguments!"))

/-- `builtin_tail`: exactly one argument, of kind QExpr, non-empty; delete the
element popped at index 0. -/
def builtin_tail (e : Lenv) (a : Lval) : Res Lval :=
  match a.cells with
  | [q] =>
    if q.ty ≠ .lqexpr then .ok (lval_err ("Function \x27tail\x27 passed incorrect type!"))
    else if q.cells.length = 0 then .ok (lval_err ("Function \x27tail\x27 passed \x7b\x7d!"))
    else do
      let (_, v1) ← lval_pop q 0
      .ok v1
  | _ => .ok (lval_err ("Function \x27tail\x27 passed too many arguments!"))

/-- `builtin_list`: retag the argument S-expression as a Q-expression in
place. -/
def builtin_list (e : Lenv) (a : Lval) : Res Lval :=
  .ok (Lval.mk .lqexpr a.pay a.cells)

/-- The repeated lval_join calls of builtin_join: move every cell of every
following list into the first. -/
def joinCells : List Lval → List Lval
  | [] => []
  | y :: ys => y.cells ++ joinCells ys

/-- `builtin_join`: every argument must be a QExpr; fold them into the first.
With no arguments at all the C code would pop out of bounds, which the
evaluator can never produce. -/
def builtin_join (e : Lenv) (a : Lval) : Res Lval :=
  if a.cells.any (fun c => c.ty ≠ .lqexpr) then
    .ok (lval_err ("Function \x27join\x27 passed incorrect type."))
  else do
    let (x, a1) ← lval_pop a 0
    .ok (Lval.mk x.ty x.pay (x.cells ++ joinCells a1.cells))

/-- `builtin_cons`: two arguments, the second a QExpr; prepend the first to
the cells of the second. -/
def builtin_cons (e : Lenv) (a : Lval) : Res Lval :=
  match a.cells with
  | [v, q] =>
    if q.ty ≠ .lqexpr then
      .ok (lval_err ("Function \x27cons\x27 passed incorrect type for second argument!"))
    else .ok (Lval.mk q.ty q.pay (v :: q.cells))
  | _ => .ok (lval_err ("Function \x27cons\x27 passed wrong number of arguments!"))

/-- `builtin_len`: one argument, of kind QExpr — and, by the same assertion
the C code uses for head and tail, the QExpr must be non-empty, so len
applied to the empty QExpr yields an Error, not the Integer 0.  Otherwise
the result is the element count as an Integer. -/
def builtin_len (e : Lenv) (a : Lval) : Res Lval :=
  match a.cells with
  | [q] =>
    if q.ty ≠ .lqexpr then .ok (lval_err ("Function \x27len\x27 passed incorrect type!"))
    else if q.cells.length = 0 then .ok (lval_err ("Function \x27len\x27 passed \x7b\x7d!"))
    else .ok (lval_num q.cells.length)
  | _ => .ok (lval_err ("Function \x27len\x27 passed too many arguments!"))

/-- `builtin_init`: one argument, of kind QExpr, non-empty.  The C code then
takes the QExpr out of the argument list — which frees the argument list —
and computes the deletion index as `a->count - 1` from the freed list rather
than from the taken QExpr.  At the moment of the free the count field of the
argument list held 0 (lval_take had just popped its only element), so the
index expression evaluates to -1 and the subsequent lval_pop is out of
bounds: on every input that passes the three checks this function performs
an out-of-bounds access instead of dropping the last element. -/
def builtin_init (e : Lenv) (a : Lval) : Res Lval :=
  match a.cells with
  | [q] =>
    if q.ty ≠ .lqexpr then .ok (lval_err ("Function \x27init\x27 passed incorrect type!"))
    else if q.cells.length = 0 then .ok (lval_err ("Function \x27init\x27 passed \x7b\x7d!"))
    else do
      let freedCount : Int := 0
      let (_, v1) ← lval_pop q (freedCount - 1)
      .ok v1
  | _ => .ok (lval_err ("Function \x27init\x27 passed too many arguments!"))

/-- First element of a formal list that is not a Symbol, with its kind —
the scan both builtin_lambda and builtin_var perform. -/
def nonSymbolIn : List Lval → Option VarT
  | [] => none
  | f :: rest => if f.ty ≠ .lsym then some f.ty else nonSymbolIn rest

/-- `builtin_lambda`: two QExpr arguments, the first containing only
Symbols; build a closure with a fresh parentless environment. -/
def builtin_lambda (e : Lenv) (a : Lval) : Res Lval :=
  match a.cells with
  | [formals, body] =>
    if formals.ty ≠ .lqexpr then
      .ok (lval_err ("Function \x27\\\x27 passed incorrect type for argument 0. Got (" ++
        ltype_name formals.ty ++ "), Expected Q-Expression."))
    else if body.ty ≠ .lqexpr then
      .ok (lval_err ("Function \x27\\\x27 passed incorrect type for argument 1. Got (" ++
        ltype_name body.ty ++ "), Expected Q-Expression."))
    else
      match nonSymbolIn formals.cells with
      | some t =>
        .ok (lval_err ("Cannot define non-symbol. Got (" ++ ltype_name t ++
          "), Expected Symbol."))
      | none => .ok (lval_lambda formals body)
  | cs =>
    .ok (lval_err ("Function \x27\\\x27 passed incorrect number of arguments. Got (" ++
      toString cs.length ++ "), Expected 2."))

/-- The binding loop of builtin_var: def installs at the root environment,
the assignment spelling installs in the current scope.  The two lists have
equal length when called (the C code checked it); unequal lengths would be
an out-of-bounds read. -/
def bindVars (e : Lenv) (func : String) : List Lval → List Lval → Res Lenv
  | [], _ => .ok e
  | k :: ks, v :: vs => do
    let s ← readSymStr k
    let e1 := if func = "def" then lenv_def e s v else e
    let e2 := if func = "=" then lenv_put e1 s v else e1
    bindVars e2 func ks vs
  | _ :: _, [] => .error (.fault ("cell index out of bounds"))

/-- `builtin_var` behind def and the assignment spelling: first argument a
QExpr of Symbols, remaining arguments the values, counts equal; installs
the pairings and returns an empty S-expression.  With an empty argument
list the C code reads cell[0] out of bounds, which the evaluator can never
produce. -/
def builtin_var (e : Lenv) (a : Lval) (func : String) : Res (Lenv × Lval) :=
  match a.cells with
  | syms :: rest =>
    if syms.ty ≠ .lqexpr then
      .ok (e, lval_err ("Function \x27" ++ func ++
        "\x27 passed incorrect type for argument 0. Got (" ++ ltype_name syms.ty ++
        "), Expected Q-Expression."))
    else
      match nonSymbolIn syms.cells with
      | some t =>
        .ok (e, lval_err ("Function \x27" ++ func ++ "\x27 cannot define non-symbol. Got (" ++
          ltype_name t ++ "), Expected Symbol."))
      | none =>
        if syms.cells.length ≠ rest.length then
          .ok (e, lval_err ("Function \x27" ++ func ++
            "\x27 passed too many arguments for symbols. Got (" ++
            toString syms.cells.length ++ "), Expected (" ++ toString rest.length ++ ")."))
        else do
          let e1 ← bindVars e func syms.cells rest
          .ok (e1, lval_sexpr)
  | [] => .error (.fault ("cell index out of bounds"))

/-- The error scan of lval_eval_sexpr: first Error among the evaluated
children, left to right. -/
def firstErr : List Lval → Option Lval
  | [] => none
  | w :: ws => if w.ty = .lerr then some w else firstErr ws

/-- The evaluator type the fuel-indexed lval_eval instantiates: one step of
evaluation threading the environment. -/
abbrev Evaluator := Lenv → Lval → Res (Lenv × Lval)

/-- The in-place child evaluation loop of lval_eval_sexpr: evaluate every
child left to right, threading environment updates from one child into the
next, as mutation of the shared environment does in C. -/
def evalList_g (ev : Evaluator) : Lenv → List Lval → Res (Lenv × List Lval)
  | e, [] => .ok (e, [])
  | e, c :: cs => do
    let (e1, w) ← ev e c
    let (e2, ws) ← evalList_g ev e1 cs
    .ok (e2, w :: ws)

/-- `builtin_eval`: one QExpr argument, retagged as an S-expression and
evaluated. -/
def builtin_eval_g (ev : Evaluator) (e : Lenv) (a : Lval) : Res (Lenv × Lval) :=
  match a.cells with
  | [q] =>
    if q.ty ≠ .lqexpr then
      .ok (e, lval_err ("Function \x27eval\x27 passed incorrect type!"))
    else ev e (Lval.mk .lsexpr q.pay q.cells)
  | _ => .ok (e, lval_err ("Function \x27eval\x27 passed too many arguments!"))

/-- The caller environment after a call returns: in C the callee mutates the
caller environment through the parent pointer of the closure environment, so
the updated caller environment is read back out of that parent slot. -/
def parOr (en : Lenv) (d : Lenv) : Lenv :=
  match en.par with
  | some p => p
  | none => d

/-- The saturated tail of lval_call: set the parent of the closure
environment to the calling environment, wrap a copy of the body in a fresh
S-expression, and hand it to builtin_eval. -/
def saturate_g (ev : Evaluator) (e fenv : Lenv) (body : Lval) : Res (Lenv × Lval) := do
  let p ← builtin_eval_g ev (Lenv.mk (some e) fenv.binds)
    (Lval.mk .lsexpr .undef [lval_copy body])
  .ok (parOr p.1 e, p.2)

/-- The while loop of lval_call: bind formals to arguments positionally.
Yields either the early Error the loop returns (inl) or the remaining
formals together with the updated closure environment (inr).  A formal
spelled & must be followed by exactly one formal, which is bound to all
remaining arguments retagged as a QExpr by builtin_list — the payload of
the argument container comes along, exactly as in C — and binding stops.
Exhausted formals with arguments remaining yield the too-many-arguments
Error carrying the counts recorded before the loop started. -/
def callBind (fenv : Lenv) (apay : Payload) (given total : Nat)
    (formals : List Lval) : List Lval → Res (Lval ⊕ (List Lval × Lenv))
  | [] => .ok (.inr (formals, fenv))
  | v :: vs =>
    match formals with
    | [] =>
      .ok (.inl (lval_err ("Function passed too many arguments. Got (" ++
        toString given ++ "), Expected (" ++ toString total ++ ").")))
    | fsym :: fs => do
      let s ← readSymStr fsym
      if s = "&" then
        match fs with
        | [nsym] => do
          let ns ← readSymStr nsym
          .ok (.inr ([], lenv_put fenv ns (Lval.mk .lqexpr apay (v :: vs))))
        | _ =>
          .ok (.inl (lval_err
            ("Function format invalid. Symbol \x27&\x27 not followed by single symbol.")))
      else callBind (lenv_put fenv s v) apay given total fs vs

/-- Dispatch through the builtin function pointer, by the name under which
lenv_add_builtins registered it.  A name outside the table would be a call
through a dangling pointer. -/
def runBuiltin_g (ev : Evaluator) (b : String) (e : Lenv) (a : Lval) : Res (Lenv × Lval) :=
  match b with
  | "list" => (builtin_list e a).map (fun r => (e, r))
  | "head" => (builtin_head e a).map (fun r => (e, r))
  | "tail" => (builtin_tail e a).map (fun r => (e, r))
  | "eval" => builtin_eval_g ev e a
  | "join" => (builtin_join e a).map (fun r => (e, r))
  | "cons" => (builtin_cons e a).map (fun r => (e, r))
  | "len" => (builtin_len e a).map (fun r => (e, r))
  | "init" => (builtin_init e a).map (fun r => (e, r))
  | "\\" => (builtin_lambda e a).map (fun r => (e, r))
  | "def" => builtin_var e a ("def")
  | "=" => builtin_var e a ("=")
  | "+" => (builtin_op e a ("+")).map (fun r => (e, r))
  | "-" => (builtin_op e a ("-")).map (fun r => (e, r))
  | "*" => (builtin_op e a ("*")).map (fun r => (e, r))
  | "/" => (builtin_op e a ("/")).map (fun r => (e, r))
  | "%" => (builtin_op e a ("%")).map (fun r => (e, r))
  | "^" => (builtin_op e a ("^")).map (fun r => (e, r))
  | "min" => (builtin_op e a ("min")).map (fun r => (e, r))
  | "max" => (builtin_op e a ("max")).map (fun r => (e, r))
  | _ => .error (.fault ("call through dangling function pointer"))

/-- `lval_call`: native functions are applied directly; a closure binds its
formals (callBind), then handles a trailing lone & by binding its follower
to the empty QExpr, then either evaluates the body (formals exhausted) or
returns a copy of the partially applied closure (formals remaining). -/
def lval_call_g (ev : Evaluator) (e : Lenv) (f a : Lval) : Res (Lenv × Lval) :=
  match f.pay with
  | .pbuiltin b => runBuiltin_g ev b e a
  | .pclosure fenv formals body => do
    let r ← callBind fenv a.pay a.cells.length formals.cells.length formals.cells a.cells
    match r with
    | .inl errv => .ok (e, errv)
    | .inr (fs, fenv1) =>
      match fs with
      | [] => saturate_g ev e fenv1 body
      | f0 :: fs1 => do
        let s0 ← readSymStr f0
        if s0 = "&" then
          match fs1 with
          | [nsym] => do
            let ns ← readSymStr nsym
            saturate_g ev e (lenv_put fenv1 ns lval_qexpr) body
          | _ =>
            .ok (e, lval_err
              ("Function format invalid. Symbol \x27&\x27 not followed by single symbol."))
        else
          .ok (e, lval_copy
            (Lval.mk .lfun (.pclosure fenv1 (Lval.mk formals.ty formals.pay fs) body) []))
  | _ => .error (.fault ("call through dangling function pointer"))

/-- `lval_eval_sexpr`: evaluate the children in place, return the first
Error if any child evaluated to one (destroying the rest), pass through the
empty S-expression, unwrap a singleton, and otherwise apply the first child
— which must be a Function — to the remaining children. -/
def lval_eval_sexpr_g (ev : Evaluator) (e : Lenv) (v : Lval) : Res (Lenv × Lval) := do
  let (e1, ws) ← evalList_g ev e v.cells
  match firstErr ws with
  | some er => .ok (e1, er)
  | none =>
    match ws with
    | [] => .ok (e1, Lval.mk v.ty v.pay [])
    | [w] => .ok (e1, w)
    | f :: args =>
      if f.ty ≠ .lfun then
        .ok (e1, lval_err ("S-Expression starts with incorrect type. Got (" ++
          ltype_name f.ty ++ "), Expected Function."))
      else lval_call_g ev e1 f (Lval.mk v.ty v.pay args)

/-- `lval_eval`, bounded by fuel: a Symbol is replaced by its environment
lookup, an S-expression is delegated to lval_eval_sexpr with the evaluator
at one unit less fuel, and every other kind evaluates to itself. -/
def lval_eval : Nat → Lenv → Lval → Res (Lenv × Lval)
  | 0, _, _ => .error .fuel
  | fuel + 1, e, v =>
    match v.ty with
    | .lsym => do
      let s ← readSymStr v
      .ok (e, lenv_get e s)
    | .lsexpr => lval_eval_sexpr_g (lval_eval fuel) e v
    | _ => .ok (e, v)

/-!  Theorems.  Shared helper lemmas come first, then one theorem per claim,
each preceded by a doc comment naming the claim. -/

/-- The builtin_head loop keeps exactly the first element, for any gas at
least the tail length. -/
theorem headLoopAux_keep_first :
    ∀ (g : Nat) (x : Lval) (rest : List Lval), rest.length ≤ g →
      headLoopAux g (x :: rest) = [x] := by
  intro g
  induction g with
  | zero =>
    intro x rest h
    cases rest with
    | nil => rfl
    | cons y rest2 => simp at h
  | succ g ih =>
    intro x rest h
    cases rest with
    | nil => rfl
    | cons y rest2 =>
      show headLoopAux g (x :: rest2) = [x]
      exact ih x rest2 (by simpa using Nat.le_of_succ_le_succ (by simpa using h))

/-- C1: the spec claims that an arithmetic builtin with one Integer and one
Float operand promotes both to Float and yields a Float value, in
particular that (+ 1 2.0) yields the Float 3.0 while (+ 1 2) yields the
Integer 3.  Evaluating the code at (+ 1 2.0) shows the bug: the double
branch of builtin_op assigns the dnum union member but never updates the
type tag of the accumulator, so the resulting value keeps the tag LVAL_NUM
while carrying a double payload — the result kind is not Float.  The pure
integer case (+ 1 2) is correct. -/
theorem C1_mixed_promotion_keeps_integer_tag :
    lval_eval 10 initEnv (sexprOf [lval_sym ("+"), lval_num 1, lval_float ⟨2, 1⟩]) =
      .ok (initEnv, Lval.mk .lnum (.pdnum ⟨3, 1⟩) []) ∧
    (Lval.mk VarT.lnum (.pdnum ⟨3, 1⟩) []).ty ≠ .lfloat ∧
    lval_eval 10 initEnv (sexprOf [lval_sym ("+"), lval_num 1, lval_num 2]) =
      .ok (initEnv, lval_num 3) :=
  ⟨rfl, by decide, rfl⟩

/-- C2: the spec claims copy preserves the stored payload for every scalar
kind, Float included.  The LVAL_FLOAT case is missing from the lval_copy
switch, so the copy of a Float carries an uninitialized union instead of
the stored number: copying the Float 2.0 yields a Float-tagged value with
undefined payload, not an equal value.  The Integer case is preserved, and
the bug is observable through the environment: binding x to 2.0 with def
and then evaluating x returns the payload-less Float, because environment
insertion and lookup both copy. -/
theorem C2_float_copy_drops_payload :
    lval_copy (lval_float ⟨2, 1⟩) = Lval.mk .lfloat .undef [] ∧
    lval_copy (lval_float ⟨2, 1⟩) ≠ lval_float ⟨2, 1⟩ ∧
    lval_copy (lval_num 5) = lval_num 5 ∧
    ((lval_eval 10 initEnv (sexprOf [lval_sym ("def"), qexprOf [lval_sym ("x")],
        lval_float ⟨2, 1⟩])).bind
      (fun p => lval_eval 10 p.1 (lval_sym ("x")))).map (fun p => p.2) =
      .ok (Lval.mk .lfloat .undef []) := by
  refine ⟨rfl, ?_, rfl, rfl⟩
  intro h
  exact absurd (congrArg (fun v => v.pay.tagNo) h) (by decide)

/-- C4: the spec claims evaluation can never abort abnormally because every
partial native operation is guarded, naming the integer remainder and the
init index computation.  The code contradicts this: the integer remainder
branch of builtin_op has no zero-divisor guard, so (% 1 0) executes a
hardware-faulting division, and builtin_init computes its deletion index
from the freed argument list, making the subsequent pop out of bounds on
every input that passes its checks. -/
theorem C4_unguarded_native_operations_fault :
    lval_eval 10 initEnv (sexprOf [lval_sym ("%"), lval_num 1, lval_num 0]) =
      .error (.fault ("integer remainder by zero")) ∧
    lval_eval 10 initEnv (sexprOf [lval_sym ("init"), qexprOf [lval_num 1, lval_num 2]]) =
      .error (.fault ("lval_pop index out of bounds")) :=
  ⟨rfl, rfl⟩

/-- C10: head applied to a non-empty QExpr returns a QExpr holding exactly
the first element — a singleton list, not the bare element — and drops the
rest; stated for every non-empty operand and checked end to end on
(head applied to the list 1 2 3). -/
theorem C10_head_returns_singleton :
    (∀ (x : Lval) (rest : List Lval) (e : Lenv) (apay qpay : Payload),
      builtin_head e (Lval.mk .lsexpr apay [Lval.mk .lqexpr qpay (x :: rest)]) =
        .ok (Lval.mk .lqexpr qpay [x])) ∧
    lval_eval 10 initEnv (sexprOf [lval_sym ("head"),
        qexprOf [lval_num 1, lval_num 2, lval_num 3]]) =
      .ok (initEnv, qexprOf [lval_num 1]) := by
  constructor
  · intro x rest e apay qpay
    simp only [builtin_head, Lval.ty, Lval.cells, Lval.pay, List.length_cons, ne_eq]
    rw [headLoopAux_keep_first (rest.length + 1) x rest (Nat.le_succ _)]
    simp
  · rfl

/-- C3 counterexample: the spec claims len applied to the empty QExpr yields
the Integer 0, an Error being required only for head, tail and init.  The
code disagrees: builtin_len carries the same non-empty assertion as head
and tail, so evaluating len on the empty QExpr yields the Error it
formats for that assertion, not the Integer 0. -/
theorem C3_len_empty_yields_error :
    lval_eval 10 initEnv (sexprOf [lval_sym ("len"), qexprOf []]) =
      .ok (initEnv, lval_err ("Function \x27len\x27 passed \x7b\x7d!")) ∧
    lval_eval 10 initEnv (sexprOf [lval_sym ("len"), qexprOf []]) ≠
      .ok (initEnv, lval_num 0) := by
  refine ⟨rfl, ?_⟩
  intro h
  rw [show lval_eval 10 initEnv (sexprOf [lval_sym ("len"), qexprOf []]) =
    .ok (initEnv, lval_err ("Function \x27len\x27 passed \x7b\x7d!")) from rfl] at h
  have h2 := congrArg
    (fun r => match r with | Except.ok p => p.2.ty | Except.error _ => VarT.lfun) h
  exact absurd h2 (by decide)

/-- C3 amended: len applied to the empty QExpr yields the Error the
non-empty assertion formats (the same guard head, tail and init carry);
for every non-empty QExpr, len yields the Integer element count.  Checked
end to end on a three-element list. -/
theorem C3_len_amended :
    (∀ (x : Lval) (rest : List Lval) (e : Lenv) (apay qpay : Payload),
      builtin_len e (Lval.mk .lsexpr apay [Lval.mk .lqexpr qpay (x :: rest)]) =
        .ok (lval_num ((x :: rest).length))) ∧
    (∀ (e : Lenv) (apay qpay : Payload),
      builtin_len e (Lval.mk .lsexpr apay [Lval.mk .lqexpr qpay []]) =
        .ok (lval_err ("Function \x27len\x27 passed \x7b\x7d!"))) ∧
    lval_eval 10 initEnv (sexprOf [lval_sym ("len"),
        qexprOf [lval_num 7, lval_num 8, lval_num 9]]) =
      .ok (initEnv, lval_num 3) := by
  refine ⟨?_, ?_, rfl⟩
  · intro x rest e apay qpay
    simp [builtin_len, Lval.ty, Lval.cells]
  · intro e apay qpay
    simp [builtin_len, Lval.ty, Lval.cells]

/-- The gas-bounded squaring loop computes the monoid power whenever the gas
is at least the exponent. -/
theorem ipowAux_eq :
    ∀ (g e : Nat), e ≤ g → ∀ (b res : Int), ipowAux g b e res = res * b ^ e := by
  intro g
  induction g with
  | zero =>
    intro e he b res
    have h0 : e = 0 := Nat.le_zero.mp he
    subst h0
    simp [ipowAux]
  | succ g ih =>
    intro e he b res
    by_cases h0 : e = 0
    · subst h0
      simp [ipowAux]
    · simp only [ipowAux]
      rw [if_neg h0]
      rw [ih (e / 2) (by omega) (b * b)]
      by_cases hp : e % 2 = 1
      · rw [if_pos hp, mul_pow]
        have he2 : e / 2 + e / 2 + 1 = e := by omega
        calc res * b * (b ^ (e / 2) * b ^ (e / 2))
            = res * (b ^ (e / 2) * b ^ (e / 2) * b ^ 1) := by ring
          _ = res * b ^ (e / 2 + e / 2 + 1) := by rw [← pow_add, ← pow_add]
          _ = res * b ^ e := by rw [he2]
      · rw [if_neg hp, mul_pow]
        have he2 : e / 2 + e / 2 = e := by omega
        calc res * (b ^ (e / 2) * b ^ (e / 2))
            = res * b ^ (e / 2 + e / 2) := by rw [← pow_add]
          _ = res * b ^ e := by rw [he2]

/-- The spec-side iterative multiplication is the monoid power. -/
theorem iterPow_eq_pow : ∀ (b : Int) (e : Nat), iterPow b e = b ^ e := by
  intro b e
  induction e with
  | zero => rfl
  | succ n ih => simp [iterPow, ih, pow_succ]

/-- C9: for every base and every non-negative exponent the
exponentiation-by-squaring routine ipow computes the same value as
iterative multiplication of the base, exponent many times (so in
particular for every exponent up to 32); and evaluating the power builtin
at base 2, exponent 10 yields the Integer 1024. -/
theorem C9_ipow_matches_iterative_multiplication :
    (∀ (b : Int) (e : Nat), ipow b (e : Int) = iterPow b e) ∧
    lval_eval 10 initEnv (sexprOf [lval_sym ("^"), lval_num 2, lval_num 10]) =
      .ok (initEnv, lval_num 1024) := by
  refine ⟨?_, rfl⟩
  intro b e
  show ipowAux ((e : Int)).toNat b ((e : Int)).toNat 1 = iterPow b e
  rw [Int.toNat_natCast, ipowAux_eq e e (le_refl e) b 1, iterPow_eq_pow, one_mul]

/-- Evaluating the division S-expression funnels into builtin_op: the symbol
resolves to the division native, both numbers evaluate to themselves, no
child is an Error, and the call dispatches.  Both sides reduce to the same
term without inspecting the two integers. -/
theorem eval_div_two_ints (a b : Int) :
    lval_eval 10 initEnv (sexprOf [lval_sym ("/"), lval_num a, lval_num b]) =
      (builtin_op initEnv (Lval.mk .lsexpr .undef [lval_num a, lval_num b]) "/").map
        (fun r => (initEnv, r)) := rfl

/-- C5: for Integer operands with non-zero divisor, division evaluates to
the Integer native truncating quotient; with divisor zero it evaluates to
the Division By Zero Error; and the Error aborts the whole left-to-right
reduction, discarding the remaining operands, as the three-operand
instance shows. -/
theorem C5_integer_division :
    (∀ (a b : Int), b ≠ 0 →
      lval_eval 10 initEnv (sexprOf [lval_sym ("/"), lval_num a, lval_num b]) =
        .ok (initEnv, lval_num (a.tdiv b))) ∧
    (∀ (a : Int),
      lval_eval 10 initEnv (sexprOf [lval_sym ("/"), lval_num a, lval_num 0]) =
        .ok (initEnv, lval_err ("Division By Zero!"))) ∧
    lval_eval 10 initEnv (sexprOf [lval_sym ("/"), lval_num 1, lval_num 0, lval_num 5]) =
      .ok (initEnv, lval_err ("Division By Zero!")) := by
  refine ⟨?_, ?_, rfl⟩
  · intro a b hb
    rw [eval_div_two_ints]
    simp [builtin_op, opLoop, opStep, readN, lval_num, Lval.ty, Lval.pay, Lval.cells,
      Except.map, Except.bind, bind, if_neg hb]
  · intro a
    rw [eval_div_two_ints]
    simp [builtin_op, opLoop, opStep, readN, lval_num, Lval.ty, Lval.pay, Lval.cells,
      Except.map, Except.bind, bind]

/-- C5 witness: the non-zero divisor hypothesis discharged at divisor 2. -/
theorem C5_integer_division_witness :
    (2 : Int) ≠ 0 ∧
    lval_eval 10 initEnv (sexprOf [lval_sym ("/"), lval_num 7, lval_num 2]) =
      .ok (initEnv, lval_num ((7 : Int).tdiv 2)) :=
  ⟨by decide, C5_integer_division.1 7 2 (by decide)⟩

/-- The error scan returns the leftmost Error: if position i holds an Error
and no earlier position does, the scan stops exactly there. -/
theorem firstErr_leftmost :
    ∀ (ws : List Lval) (i : Nat) (hi : i < ws.length),
      (ws.get ⟨i, hi⟩).ty = .lerr →
      (∀ (j : Nat) (hj : j < i), (ws.get ⟨j, Nat.lt_trans hj hi⟩).ty ≠ .lerr) →
      firstErr ws = some (ws.get ⟨i, hi⟩) := by
  intro ws
  induction ws with
  | nil =>
    intro i hi h1 h2
    simp at hi
  | cons w ws ih =>
    intro i hi h1 h2
    cases i with
    | zero =>
      show firstErr (w :: ws) = some w
      have h1b : w.ty = .lerr := h1
      simp [firstErr, h1b]
    | succ i2 =>
      have hw : w.ty ≠ .lerr := h2 0 (Nat.succ_pos i2)
      have hi2 : i2 < ws.length := by
        have h3 := hi
        simp only [List.length_cons] at h3
        omega
      show firstErr (w :: ws) = some (ws.get ⟨i2, hi2⟩)
      rw [show firstErr (w :: ws) = firstErr ws from by simp [firstErr, hw]]
      exact ih i2 hi2 h1 (fun j hj => h2 (j + 1) (Nat.succ_lt_succ hj))

/-- C8: for every S-expression whose children evaluate, left to right, to a
list containing an Error, evaluation of the S-expression returns the
leftmost such Error and discards every other evaluated child, including
those to its right that the scan never inspected. -/
theorem C8_first_error_wins :
    ∀ (fuel : Nat) (e e1 : Lenv) (vpay : Payload) (cs ws : List Lval)
      (i : Nat) (hi : i < ws.length),
      evalList_g (lval_eval fuel) e cs = .ok (e1, ws) →
      (ws.get ⟨i, hi⟩).ty = .lerr →
      (∀ (j : Nat) (hj : j < i), (ws.get ⟨j, Nat.lt_trans hj hi⟩).ty ≠ .lerr) →
      lval_eval (fuel + 1) e (Lval.mk .lsexpr vpay cs) = .ok (e1, ws.get ⟨i, hi⟩) := by
  intro fuel e e1 vpay cs ws i hi hev herr hbefore
  show lval_eval_sexpr_g (lval_eval fuel) e (Lval.mk .lsexpr vpay cs) = _
  unfold lval_eval_sexpr_g
  simp only [Lval.cells, Lval.ty, Lval.pay]
  rw [hev]
  simp only [Except.bind, bind]
  rw [firstErr_leftmost ws i hi herr hbefore]

/-- C8 witness: a two-child S-expression whose first child evaluates to an
Error; the hypotheses are discharged at that concrete input. -/
theorem C8_first_error_wins_witness :
    lval_eval 2 (Lenv.mk none [])
        (Lval.mk .lsexpr .undef [lval_err ("boom"), lval_num 7]) =
      .ok (Lenv.mk none [], lval_err ("boom")) := by
  exact C8_first_error_wins 1 (Lenv.mk none []) (Lenv.mk none []) .undef
    [lval_err ("boom"), lval_num 7] [lval_err ("boom"), lval_num 7] 0 (by decide)
    rfl rfl (fun j hj => absurd hj (by omega))

/-- The binding loop of lval_call, when the arguments run out before the
formals and no formal is the variadic marker, stops with exactly the
unbound suffix of the formals remaining. -/
theorem callBind_partial :
    ∀ (vs fcells : List Lval) (fenv : Lenv) (apay : Payload) (g t : Nat),
      (∀ fc ∈ fcells, ∃ s, fc.pay = .pstr s ∧ s ≠ "&") →
      vs.length < fcells.length →
      ∃ fenv1, callBind fenv apay g t fcells vs =
        .ok (.inr (fcells.drop vs.length, fenv1)) := by
  intro vs
  induction vs with
  | nil =>
    intro fcells fenv apay g t hsym hlen
    exact ⟨fenv, by simp [callBind]⟩
  | cons v vs ih =>
    intro fcells fenv apay g t hsym hlen
    cases fcells with
    | nil => simp at hlen
    | cons fsym fs =>
      obtain ⟨s, hpay, hamp⟩ := hsym fsym (List.mem_cons_self _ _)
      have h1 : readSymStr fsym = .ok s := by simp [readSymStr, hpay]
      have hlen2 : vs.length < fs.length := by
        simp only [List.length_cons] at hlen
        omega
      obtain ⟨fenv1, heq⟩ := ih fs (lenv_put fenv s v) apay g t
        (fun fc hfc => hsym fc (List.mem_cons_of_mem _ hfc)) hlen2
      refine ⟨fenv1, ?_⟩
      simp only [callBind]
      rw [h1]
      simp only [Except.bind, bind]
      rw [if_neg hamp]
      simpa [List.drop_succ_cons] using heq

/-- C6: calling a closure with fewer arguments than formals (none of which
is the variadic marker) does not evaluate the body: the call returns a copy
of the closure whose environment holds the bindings made so far and whose
formal list is exactly the unbound suffix.  Checked end to end: applying
the two-parameter addition lambda to 1 yields a Function value, and
applying that to 2 yields the Integer 3. -/
theorem C6_partial_application :
    (∀ (fuel : Nat) (e fenv : Lenv) (formals body : Lval) (apay : Payload)
      (vs : List Lval),
      (∀ fc ∈ formals.cells, ∃ s, fc.pay = .pstr s ∧ s ≠ "&") →
      vs.length < formals.cells.length →
      ∃ fenv1,
        lval_call_g (lval_eval fuel) e
            (Lval.mk .lfun (.pclosure fenv formals body) [])
            (Lval.mk .lsexpr apay vs) =
          .ok (e, lval_copy (Lval.mk .lfun (.pclosure fenv1
            (Lval.mk formals.ty formals.pay (formals.cells.drop vs.length)) body) []))) ∧
    (lval_eval 10 initEnv (sexprOf [sexprOf [lval_sym ("\\"),
        qexprOf [lval_sym ("x"), lval_sym ("y")],
        qexprOf [lval_sym ("+"), lval_sym ("x"), lval_sym ("y")]], lval_num 1])).map
      (fun p => p.2.ty) = .ok .lfun ∧
    lval_eval 10 initEnv (sexprOf [sexprOf [sexprOf [lval_sym ("\\"),
        qexprOf [lval_sym ("x"), lval_sym ("y")],
        qexprOf [lval_sym ("+"), lval_sym ("x"), lval_sym ("y")]], lval_num 1],
        lval_num 2]) =
      .ok (initEnv, lval_num 3) := by
  refine ⟨?_, rfl, rfl⟩
  intro fuel e fenv formals body apay vs hsym hlen
  cases formals with
  | mk fty fpay fcells =>
    simp only [Lval.cells] at hsym hlen
    obtain ⟨fenv1, hcb⟩ := callBind_partial vs fcells fenv apay
      vs.length fcells.length hsym hlen
    refine ⟨fenv1, ?_⟩
    simp only [lval_call_g, Lval.pay, Lval.cells, Lval.ty]
    rw [hcb]
    simp only [Except.bind, bind]
    cases hd : fcells.drop vs.length with
    | nil =>
      have h3 := congrArg List.length hd
      simp only [List.length_drop, List.length_nil] at h3
      omega
    | cons f0 fs1 =>
      have hf0 : f0 ∈ fcells :=
        List.drop_subset _ _ (hd ▸ List.mem_cons_self f0 fs1)
      obtain ⟨s0, hpay0, hamp0⟩ := hsym f0 hf0
      have h1 : readSymStr f0 = .ok s0 := by simp [readSymStr, hpay0]
      simp [h1, hamp0]

/-- C6 witness: the symbols-only and too-few-arguments hypotheses discharged
at the two-parameter lambda applied to one argument; the result is a
Function value. -/
theorem C6_partial_application_witness :
    (lval_call_g (lval_eval 0) (Lenv.mk none [])
        (Lval.mk .lfun (.pclosure (Lenv.mk none [])
          (qexprOf [lval_sym ("x"), lval_sym ("y")]) (qexprOf [])) [])
        (Lval.mk .lsexpr .undef [lval_num 1])).map (fun p => p.2.ty) =
      .ok .lfun := by
  obtain ⟨fenv1, hh⟩ := C6_partial_application.1 0 (Lenv.mk none []) (Lenv.mk none [])
    (qexprOf [lval_sym ("x"), lval_sym ("y")]) (qexprOf []) .undef [lval_num 1]
    (by
      intro fc hfc
      simp only [qexprOf, Lval.cells, List.mem_cons, List.not_mem_nil, or_false] at hfc
      rcases hfc with rfl | rfl
      · exact ⟨"x", rfl, by decide⟩
      · exact ⟨"y", rfl, by decide⟩)
    (by decide)
  rw [hh]
  rfl

/-- Copying a Q-expression never reads the union, so the payload of the
original is irrelevant to the copy. -/
theorem lval_copy_qexpr_ignores_pay (p : Payload) (c : List Lval) :
    lval_copy (Lval.mk .lqexpr p c) = Lval.mk .lqexpr .undef (lval_copy_list c) := rfl

/-- Binding a Q-expression stores a copy, so the payload of the inserted
Q-expression container does not affect the resulting bindings. -/
theorem putBinds_qexpr_pay :
    ∀ (l : List (String × Lval)) (k : String) (p1 p2 : Payload) (c : List Lval),
      putBinds l k (Lval.mk .lqexpr p1 c) = putBinds l k (Lval.mk .lqexpr p2 c) := by
  intro l k p1 p2 c
  induction l with
  | nil =>
    show [(k, lval_copy (Lval.mk .lqexpr p1 c))] = [(k, lval_copy (Lval.mk .lqexpr p2 c))]
    rw [lval_copy_qexpr_ignores_pay, lval_copy_qexpr_ignores_pay]
  | cons sw rest ih =>
    obtain ⟨s, w⟩ := sw
    by_cases h : s = k
    · simp only [putBinds, if_pos h]
      rw [lval_copy_qexpr_ignores_pay, lval_copy_qexpr_ignores_pay]
    · simp only [putBinds, if_neg h]
      rw [ih]

/-- C7: a closure whose formals are the variadic marker followed by one
symbol binds that symbol to all actual arguments collected as a QExpr —
including the empty QExpr when no argument is supplied — and proceeds to
evaluate the body in that environment.  Checked end to end: the variadic
lambda applied to 1 2 3 yields the QExpr holding 2 and 3, and applied to 1
alone yields the empty QExpr. -/
theorem C7_variadic_capture :
    (∀ (fuel : Nat) (e fenv : Lenv) (fpay apay : Payload) (s : String) (body : Lval)
      (vs : List Lval),
      lval_call_g (lval_eval fuel) e
          (Lval.mk .lfun (.pclosure fenv
            (Lval.mk .lqexpr fpay [lval_sym ("&"), lval_sym s]) body) [])
          (Lval.mk .lsexpr apay vs) =
        saturate_g (lval_eval fuel) e
          (lenv_put fenv s (Lval.mk .lqexpr .undef vs)) body) ∧
    lval_eval 10 initEnv (sexprOf [sexprOf [lval_sym ("\\"),
        qexprOf [lval_sym ("x"), lval_sym ("&"), lval_sym ("xs")], qexprOf [lval_sym ("xs")]],
        lval_num 1, lval_num 2, lval_num 3]) =
      .ok (initEnv, qexprOf [lval_num 2, lval_num 3]) ∧
    lval_eval 10 initEnv (sexprOf [sexprOf [lval_sym ("\\"),
        qexprOf [lval_sym ("x"), lval_sym ("&"), lval_sym ("xs")], qexprOf [lval_sym ("xs")]],
        lval_num 1]) =
      .ok (initEnv, qexprOf []) := by
  refine ⟨?_, rfl, rfl⟩
  intro fuel e fenv fpay apay s body vs
  cases vs with
  | nil => rfl
  | cons v rest =>
    show saturate_g (lval_eval fuel) e
      (lenv_put fenv s (Lval.mk .lqexpr apay (v :: rest))) body = _
    unfold lenv_put
    rw [putBinds_qexpr_pay fenv.binds s apay .undef (v :: rest)]
